import Mathlib

/-!
Verification of the analytics engine of the anime-analytics-dashboard
repository (src/app.py) against its natural-language specification.

The source is a pandas/streamlit script.  We shallowly embed its data
transformations: a DataFrame is a `List AnimeRow`, numeric columns that may
hold NaN are `Option` fields, float arithmetic is modelled exactly over `Rat`
(every property checked here is an order/threshold/counting property, not a
rounding property), and every fallible operation is total by construction.
-/

namespace AnimeDash

/-! ### Dynamic Python values for the list-field decoder

`safe_eval` (src/app.py lines 25-34) receives whatever sits in the raw
`genres` / `studios` CSV column cell: a missing value (NaN), a string, or -
when quantifying over the decoder's contract - an already-structured value
such as a list or a number.  We model that dynamic universe by `PyVal`,
with list payloads restricted to the string elements that genre/studio lists
carry. -/

inductive PyVal : Type
  | vNone : PyVal
  | vStr : String → PyVal
  | vList : List String → PyVal
  | vInt : Int → PyVal
  | vFloat : Rat → PyVal
  deriving DecidableEq, Repr

/-- The single-quote character, written via its code point so that the
character literal does not interfere with quoting in this file. -/
def quoteChar : Char := Char.ofNat 39

/-- Drop leading spaces. -/
def skipSpaces : List Char → List Char
  | ' ' :: cs => skipSpaces cs
  | cs => cs

/-- Parse the body of a single-quoted string literal: consume characters up
to the closing quote, returning the content and the rest of the input. -/
def parseQuotedBody : List Char → List Char → Option (String × List Char)
  | [], _ => none
  | c :: cs, acc =>
    if c = quoteChar then some (String.mk acc.reverse, cs)
    else parseQuotedBody cs (c :: acc)

/-- Parse one single-quoted string literal at the head of the input. -/
def parseQuoted (cs : List Char) : Option (String × List Char) :=
  match cs with
  | [] => none
  | c :: rest => if c = quoteChar then parseQuotedBody rest [] else none

/-- Parse the comma-separated items of a list literal, up to and including
the closing bracket.  `fuel` bounds the number of items (one unit per item
suffices). -/
def parseItems : Nat → List Char → Option (List String × List Char)
  | 0, _ => none
  | fuel + 1, cs =>
    match parseQuoted (skipSpaces cs) with
    | none => none
    | some (s, rest) =>
      match skipSpaces rest with
      | [] => none
      | c :: rest2 =>
        if c = ',' then
          match parseItems fuel rest2 with
          | some (ss, r) => some (s :: ss, r)
          | none => none
        else if c = ']' then some ([s], rest2)
        else none

/-- Parse a run of decimal digits into a number; any non-digit fails. -/
def digitsToNat : List Char → Nat → Option Nat
  | [], acc => some acc
  | c :: cs, acc =>
    if c.isDigit then digitsToNat cs (acc * 10 + (c.toNat - 48)) else none

/-- Parse a signed decimal integer literal occupying the whole string. -/
def parseIntStr (s : String) : Option Int :=
  match s.toList with
  | [] => none
  | c :: cs =>
    if c = '-' then
      match cs with
      | [] => none
      | _ :: _ => (digitsToNat cs 0).map (fun n => -(n : Int))
    else (digitsToNat (c :: cs) 0).map (fun n => (n : Int))

/-- Model of `ast.literal_eval` restricted to the literal shapes that the
genre/studio columns and the claims exercise: integer literals and flat
list literals of single-quoted strings.  Every other input is treated as a
parse failure (`none`), which `safe_eval` turns into the empty list -
exactly the bare-`except` behaviour of the source. -/
def literalEval (s : String) : Option PyVal :=
  match parseIntStr s with
  | some n => some (.vInt n)
  | none =>
    match skipSpaces s.toList with
    | [] => none
    | c :: cs =>
      if c = '[' then
        match skipSpaces cs with
        | [] => none
        | d :: ds =>
          if d = ']' then
            if skipSpaces ds = [] then some (.vList []) else none
          else
            match parseItems (cs.length + 1) cs with
            | some (ss, rest) =>
              if skipSpaces rest = [] then some (.vList ss) else none
            | none => none
      else none

/-- Embedding of `safe_eval` (src/app.py lines 25-34), traced branch by
branch from the source:

* `pd.isna(val)` on NaN/None is `True`, so those inputs return `[]`.
* On a Python list, `pd.isna` returns an element-wise boolean array.  The
  `if` then takes the array's truth value: for length 1 this is `False`
  (the code falls through to `return val if isinstance(val, list) else []`,
  returning the list unchanged), but for length 0 or length at least 2 the
  truth value is ambiguous and numpy raises `ValueError`, which the bare
  `except` turns into `[]`.  Hence list inputs of length other than 1
  come back as `[]` (for length 0 that coincides with the input).
* On a string, `pd.isna` is `False`; the membership test
  `val in [str-of-empty-list, empty-string]` sends those two strings to
  `[]`; any other string goes to `ast.literal_eval`, whose value is
  returned unchanged (whatever its type), with parse failures caught by
  the bare `except` and degraded to `[]`.
* Any other scalar (number, float) is neither NaN, nor one of the two
  special strings, nor a `str`, nor a `list`, so it returns `[]`. -/
def safe_eval : PyVal → PyVal
  | .vNone => .vList []
  | .vStr s =>
    if s = "[]" ∨ s = "" then .vList []
    else
      match literalEval s with
      | some v => v
      | none => .vList []
  | .vList xs => if xs.length ≤ 1 then .vList xs else .vList []
  | .vInt _ => .vList []
  | .vFloat _ => .vList []

/-- Whether a dynamic value is a proper sequence (the shape the spec
requires of every decoded `genres_list` / `studios_list`). -/
def isSeqVal : PyVal → Bool
  | .vList _ => true
  | _ => false

/-! ### The normalized data model

One row of the loaded, normalized dataset (after `load_data`): `year` is the
parsed year (`None` when `pd.to_datetime(..., errors=coerce)` failed),
`genres_list` / `studios_list` are the decoded sequences, and the numeric
columns are `Option` values (`none` models NaN).  Scores, member counts and
recommendation counts are carried as exact rationals. -/
structure AnimeRow where
  title : Option String
  score : Option Rat
  year : Option Int
  members : Option Rat
  recommendation_count : Option Rat
  genres_list : List String
  studios_list : List String
  deriving DecidableEq, Repr

/-! ### Filter engine (src/app.py lines 53-57) -/

/-- The row-inclusion predicate of `df_filtered`:
`(year >= lo) & (year <= hi) & (score >= smin)`.  A NaN (`none`) in `year`
or `score` makes the pandas comparison `False`, never an error; the embedding
mirrors that by matching on the `Option`. -/
def filterPred (lo hi : Int) (smin : Rat) (r : AnimeRow) : Bool :=
  (match r.year with
   | some y => decide (lo ≤ y) && decide (y ≤ hi)
   | none => false) &&
  (match r.score with
   | some s => decide (smin ≤ s)
   | none => false)

/-- Embedding of `df_filtered` (src/app.py lines 53-57).  Boolean-mask
selection followed by `.copy()` builds a fresh frame; the embedding is the
pure `List.filter`. -/
def df_filtered (df : List AnimeRow) (lo hi : Int) (smin : Rat) : List AnimeRow :=
  df.filter (filterPred lo hi smin)

/-! ### Generic stable descending sort

`DataFrame.nlargest(n, col)` with the default `keep` policy prioritizes
earlier rows among ties and returns rows in descending key order, i.e. it is
a stable descending sort followed by `take n`; `sort_values(ascending=False)`
likewise sorts descending (the embedding fixes ties in original order, which
pandas leaves unspecified for its default sort kind).  We reuse Mathlib's
`List.insertionSort`, which is stable, with the flipped key order. -/

def keyRel {α β : Type} [LinearOrder β] (key : α → β) : α → α → Prop :=
  fun a b => key b ≤ key a

instance keyRelDecidable {α β : Type} [LinearOrder β] (key : α → β) :
    DecidableRel (keyRel key) :=
  fun a b => inferInstanceAs (Decidable (key b ≤ key a))

instance keyRelTotal {α β : Type} [LinearOrder β] (key : α → β) :
    IsTotal α (keyRel key) :=
  ⟨fun a b => le_total (key b) (key a)⟩

instance keyRelTrans {α β : Type} [LinearOrder β] (key : α → β) :
    IsTrans α (keyRel key) :=
  ⟨fun _ _ _ h1 h2 => le_trans h2 h1⟩

/-- Stable sort of `l`, descending by `key`. -/
def sortDescBy {α β : Type} [LinearOrder β] (key : α → β) (l : List α) : List α :=
  List.insertionSort (keyRel key) l

/-! ### Summary metrics (src/app.py lines 63-73) -/

/-- All genres of the given rows, flattened in row order
(`[g for genres in rows for g in genres]`). -/
def genresFlat (rows : List AnimeRow) : List String :=
  rows.flatMap (fun r => r.genres_list)

/-- All studios of the given rows, flattened in row order. -/
def studiosFlat (rows : List AnimeRow) : List String :=
  rows.flatMap (fun r => r.studios_list)

/-- The distinct elements of a list in first-appearance order (the key order
that the pandas value-counting hash table produces). -/
def distinctFirst {α : Type} [DecidableEq α] : List α → List α
  | [] => []
  | x :: xs => x :: (distinctFirst xs).filter (fun y => decide (y ≠ x))

/-- Model of the index of `pd.Series(l).value_counts()`: the distinct values
of `l`, stably sorted by descending occurrence count.  Ties keep
first-appearance order (the spec's reading; pandas does not pin down tie
order for its default sort kind). -/
def valueCountsKeys (l : List String) : List String :=
  sortDescBy (fun g => l.count g) (distinctFirst l)

/-- Embedding of `len(df_filtered)` - the `Total Anime` metric. -/
def totalCount (rows : List AnimeRow) : Nat := rows.length

/-- Embedding of `df_filtered[score-column].mean()`: the mean over non-null scores, or
`none` (pandas: NaN) when no score is present. -/
def meanScore (rows : List AnimeRow) : Option Rat :=
  let xs := rows.filterMap (fun r => r.score)
  if xs.isEmpty then none else some (xs.sum / (xs.length : Rat))

/-- Embedding of `df_filtered[members-column].sum()`: missing values count as 0. -/
def sumMembers (rows : List AnimeRow) : Rat :=
  (rows.filterMap (fun r => r.members)).sum

/-- The `Top Genre` metric (src/app.py lines 71-73): the most frequent genre
of the flattened genre lists, or the string `N/A` when no genres are
present. -/
def top_genre (rows : List AnimeRow) : String :=
  let flat := genresFlat rows
  if flat.isEmpty then "N/A" else (valueCountsKeys flat).headD "N/A"

/-- The `Top Studios` view (src/app.py lines 90-96): guarded by
`if studios_flat:`; nothing is produced when the flattened studio list is
empty. -/
def topStudiosView (rows : List AnimeRow) : Option (List String) :=
  let flat := studiosFlat rows
  if flat.isEmpty then none else some ((valueCountsKeys flat).take 10)

/-! ### Hidden gems (src/app.py lines 98-130) -/

/-- Row restriction of `df_gems`: `recommendation_count` non-null and
`members > 100` (a NaN `members` compares `False`). -/
def gemPred (r : AnimeRow) : Bool :=
  r.recommendation_count.isSome &&
  (match r.members with
   | some m => decide ((100 : Rat) < m)
   | none => false)

/-- Embedding of `df_gems` (src/app.py lines 101-104). -/
def df_gems (rows : List AnimeRow) : List AnimeRow :=
  rows.filter gemPred

/-- The `rec_ratio` column: `recommendation_count / members`.  The `getD`
defaults are never reached on `df_gems` rows, where both fields are present
and `members > 100`. -/
def ratioOf (r : AnimeRow) : Rat :=
  r.recommendation_count.getD 0 / r.members.getD 0

/-- Interpolated median of a list of rationals, as
`pandas.Series.median()` computes it: sort ascending; odd length takes the
middle element, even length averages the two middle elements; the empty list
has no median. -/
def medianQ (xs : List Rat) : Option Rat :=
  match xs with
  | [] => none
  | _ :: _ =>
    let s := List.insertionSort (fun a b : Rat => a ≤ b) xs
    let n := s.length
    if n % 2 = 1 then some (s.getD (n / 2) 0)
    else some ((s.getD (n / 2 - 1) 0 + s.getD (n / 2) 0) / 2)

/-- Embedding of `median_members` (src/app.py line 109), over the restricted `df_gems`
population. -/
def median_members (rows : List AnimeRow) : Option Rat :=
  medianQ ((df_gems rows).map (fun r => r.members.getD 0))

/-- Embedding of `median_ratio` (src/app.py line 110), over the restricted `df_gems`
population. -/
def median_ratioQ (rows : List AnimeRow) : Option Rat :=
  medianQ ((df_gems rows).map ratioOf)

/-- The hidden-gem threshold test (src/app.py lines 126-128):
`members < median_members` and `rec_ratio > median_ratio`.  The medians are
only consumed under the `len(df_gems) > 0` guard, where they exist; the
`getD` defaults are never reached then (and on an empty `df_gems` this
predicate filters an empty list anyway). -/
def hiddenPred (rows : List AnimeRow) (r : AnimeRow) : Bool :=
  decide (r.members.getD 0 < (median_members rows).getD 0) &&
  decide ((median_ratioQ rows).getD 0 < ratioOf r)

/-- The rows of `df_gems` passing the hidden-gem thresholds. -/
def hiddenRows (rows : List AnimeRow) : List AnimeRow :=
  (df_gems rows).filter (hiddenPred rows)

/-- Embedding of `hidden` (src/app.py lines 126-129):
`.nlargest(10, rec-ratio-column)` = stable descending sort by `rec_ratio`,
then the first 10. -/
def hidden (rows : List AnimeRow) : List AnimeRow :=
  (sortDescBy ratioOf (hiddenRows rows)).take 10

/-- The whole hidden-gems tab output, including the `len(df_gems) > 0`
guard (src/app.py line 106): `none` when the restricted population is empty
(no median is computed, no table shown). -/
def gemsView (rows : List AnimeRow) : Option (List AnimeRow) :=
  if (df_gems rows).length = 0 then none else some (hidden rows)

/-! ### Genre trends (src/app.py lines 132-158) -/

/-- Embedding of `df_trends` (line 135): rows whose decoded genre list is
non-empty. -/
def df_trends (rows : List AnimeRow) : List AnimeRow :=
  rows.filter (fun r => !r.genres_list.isEmpty)

/-- The `decade` column (line 136): `(year // 10) * 10` with Python floor
division (`Int.fdiv`).  The `getD` default is never reached on filtered
rows, whose `year` is present. -/
def decadeOf (r : AnimeRow) : Int :=
  (r.year.getD 0).fdiv 10 * 10

/-- Embedding of `sorted(df_trends[decade-column].unique())` (line 143): the distinct
decades of the restricted subset, ascending. -/
def trendDecades (rows : List AnimeRow) : List Int :=
  List.insertionSort (fun a b : Int => a ≤ b)
    (distinctFirst ((df_trends rows).map decadeOf))

/-- Embedding of `top_genres` (lines 138-139): the (at most) 6 most frequent genres of
the flattened genre lists of `df_trends`. -/
def top_genres (rows : List AnimeRow) : List String :=
  (valueCountsKeys (genresFlat (df_trends rows))).take 6

/-- The flattened genre lists of the `df_trends` rows belonging to one
decade (lines 144-145). -/
def decadeGenres (rows : List AnimeRow) (d : Int) : List String :=
  genresFlat ((df_trends rows).filter (fun r => decide (decadeOf r = d)))

/-- One row of the genre-by-decade grid. -/
structure GridEntry where
  decade : Int
  genre : String
  count : Nat
  deriving DecidableEq, Repr

/-- Embedding of `genre_counts` (lines 142-151): for every decade present
(ascending) and every top genre, one entry carrying
`decade_genres.count(genre)`. -/
def genre_counts (rows : List AnimeRow) : List GridEntry :=
  (trendDecades rows).flatMap (fun d =>
    (top_genres rows).map (fun g =>
      { decade := d, genre := g, count := (decadeGenres rows d).count g }))

/-! ### Search tab (src/app.py lines 178-197) -/

/-- Lower-cased character list of a string (the `case=False` flag of
`Series.str.contains` compares case-folded text). -/
def lowerChars (s : String) : List Char := s.toList.map Char.toLower

/-- Left brace / right brace characters, via code points. -/
def lbrace : Char := Char.ofNat 123

def rbrace : Char := Char.ofNat 125

/-- The regular-expression metacharacters of Python's `re` module. -/
def regexMeta : List Char :=
  ['.', '^', '$', '*', '+', '?', lbrace, rbrace, '[', ']', '\\', '|', '(', ')']

/-- A character the regex engine treats literally. -/
def isLiteralChar (c : Char) : Bool := decide (c ∉ regexMeta)

/-- A query string containing no regex metacharacter. -/
def plainQuery (q : String) : Bool := q.toList.all isLiteralChar

/-- Match a pattern against the beginning of the text.  This models
Python's `re` matching for the pattern fragment the claims exercise:
literal characters, plus the metacharacter `.` (any character except a
newline).  Patterns using other metacharacters are outside the modelled
domain and never reach this function in the theorems below. -/
def matchHere : List Char → List Char → Bool
  | [], _ => true
  | _ :: _, [] => false
  | p :: ps, c :: cs =>
    (if p = '.' then decide (c ≠ '\n') else decide (p = c)) && matchHere ps cs

/-- Model of `re.search`: the pattern may match starting at any position of
the text. -/
def reSearch (pat : List Char) : List Char → Bool
  | [] => matchHere pat []
  | c :: cs => matchHere pat (c :: cs) || reSearch pat cs

/-- Embedding of the match predicate of line 184:
`title.str.contains(search, case=False, na=False)`.  `na=False` makes a
null title never match; `case=False` compares case-folded; the query is
interpreted as a regular expression (the pandas default `regex=True`). -/
def titleMatchesQ (q : String) (r : AnimeRow) : Bool :=
  match r.title with
  | none => false
  | some t => reSearch (lowerChars q) (lowerChars t)

/-- Embedding of `results` (lines 183-187): an empty query is falsy, so the
subset passes through unchanged; otherwise rows are kept by the
`str.contains` mask. -/
def searchResults (rows : List AnimeRow) (q : String) : List AnimeRow :=
  if q = "" then rows else rows.filter (titleMatchesQ q)

/-- The spec-side predicate of §4.4, written from the spec's words: the
title contains the query as a case-insensitive substring. -/
def specContainsCI (t q : String) : Prop :=
  lowerChars q <:+: lowerChars t

instance (t q : String) : Decidable (specContainsCI t q) :=
  List.decidableInfix _ _

/-- Descending sort key for `sort_values(score-column, ascending=False)`:
a null score is `bottom`, so it sorts last in descending order (pandas
default `na_position` puts NaN last). -/
def scoreKey (r : AnimeRow) : WithBot Rat :=
  match r.score with
  | some q => (q : WithBot Rat)
  | none => ⊥

/-- Embedding of the displayed search table (lines 190-197): the matches,
sorted descending by score (nulls last) and truncated to the first 100.
The column projection `results[available_cols]` keeps every row and is not
modelled (row identity is what the claims are about). -/
def searchDisplay (ms : List AnimeRow) : List AnimeRow :=
  (sortDescBy scoreKey ms).take 100

/-! ### Concrete fixtures for witnesses and counterexamples -/

/-- A row constructor with the fields the fixtures need. -/
def mkRow (t : String) (sc : Rat) (y : Int) (m rc : Rat) (gs : List String) :
    AnimeRow :=
  { title := some t, score := some sc, year := some y, members := some m,
    recommendation_count := some rc, genres_list := gs, studios_list := [] }

/-- Fixture for the hidden-gems witness: four qualifying rows.  Ratios are
60/150, 300/400, 100/1000, 100/2000; the interpolated medians over the four
rows are 700 (members) and 1/4 (ratio); rows `wA` and `wB` are the hidden
gems, with `wB` ranked first. -/
def wA : AnimeRow := mkRow "Gem A" 8 2005 150 60 ["Drama"]

def wB : AnimeRow := mkRow "Gem B" 7 2006 400 300 ["Action"]

def wC : AnimeRow := mkRow "Big C" 9 2007 1000 100 ["Action"]

def wD : AnimeRow := mkRow "Big D" 6 2008 2000 100 ["Comedy"]

def gemsDemo : List AnimeRow := [wA, wB, wC, wD]

/-- One-row fixture with a single distinct genre: the genre-by-decade grid
over it has 1 row, not `#decades * 6` rows. -/
def soloRow : AnimeRow := mkRow "Solo" 7 2005 500 10 ["A"]

def soloDemo : List AnimeRow := [soloRow]

/-- Fixture for the search counterexample: the title `abc` does not contain
the character `.`, yet the query consisting of that single character
matches it, because the query is fed to the regex engine. -/
def rowAbc : AnimeRow := mkRow "abc" 5 2001 200 10 []

def abcDemo : List AnimeRow := [rowAbc]


/-! ## Theorems -/

/-! ### Claim C2: the filter predicate -/

theorem filterPred_iff (lo hi : Int) (smin : Rat) (r : AnimeRow) :
    filterPred lo hi smin r = true ↔
      (∃ y, r.year = some y ∧ lo ≤ y ∧ y ≤ hi) ∧
        ∃ s, r.score = some s ∧ smin ≤ s := by
  unfold filterPred
  cases hy : r.year <;> cases hs : r.score <;> simp [hy, hs, and_assoc]

/-- Claim C2: for every dataset and every parameter pair, a row is in the
filtered subset iff it lies in the dataset and its year is present and
within the range and its score is present and at least the minimum; rows
with a null year or score are excluded (the embedded comparison on `none`
is `false`, and the predicate is total, so no error can be raised). -/
theorem filter_membership_iff (df : List AnimeRow) (lo hi : Int) (smin : Rat)
    (r : AnimeRow) :
    r ∈ df_filtered df lo hi smin ↔
      r ∈ df ∧ (∃ y, r.year = some y ∧ lo ≤ y ∧ y ≤ hi) ∧
        ∃ s, r.score = some s ∧ smin ≤ s := by
  rw [df_filtered, List.mem_filter, filterPred_iff]

/-! ### Claim C7: the filter is idempotent and non-mutating -/

/-- Claim C7: filtering is idempotent - applying the filter to its own
output with identical bounds returns that output unchanged - and the
filtered subset is a sublist (a pure view) of the base dataset.  The
embedding of the filter is a pure function, so the base dataset itself is
untouched by construction, matching the source, where boolean-mask
selection plus `.copy()` never mutates `df`. -/
theorem filter_idempotent_pure (df : List AnimeRow) (lo hi : Int) (smin : Rat) :
    df_filtered (df_filtered df lo hi smin) lo hi smin =
      df_filtered df lo hi smin ∧
    List.Sublist (df_filtered df lo hi smin) df := by
  constructor
  · unfold df_filtered
    rw [List.filter_filter]
    simp only [Bool.and_self]
  · exact List.filter_sublist _

/-! ### Claim C4: the decoder can pass a non-sequence through (code bug) -/

/-- Claim C4 (code bug): the raw genres cell `123` (a string) survives
`safe_eval` as the integer `123`, not as a sequence: `ast.literal_eval`
parses it successfully and its value is returned without a list check.
This contradicts the decoding contract (a sequence for all rows, malformed
encodings to the empty sequence) and the code's own downstream iteration
over `genres_list`, which requires a sequence. -/
theorem safe_eval_nonseq_passthrough :
    safe_eval (.vStr "123") = .vInt 123 ∧
    isSeqVal (safe_eval (.vStr "123")) = false := by
  constructor <;> rfl

/-! ### Claim C9: the decoder is not idempotent on proper sequences (code bug) -/

/-- Claim C9 (code bug): a value that is already a proper sequence of two
elements is not returned unchanged - `pd.isna` on it yields a two-element
boolean array whose truth test raises, and the bare `except` returns the
empty list.  Consequently decoding a decoded value differs from decoding
once: the well-formed encoding decodes to a two-element list whose second
decoding collapses to the empty list. -/
theorem safe_eval_not_idempotent :
    safe_eval (.vList ["Action", "Comedy"]) = .vList [] ∧
    safe_eval (.vList ["Action", "Comedy"]) ≠ .vList ["Action", "Comedy"] ∧
    safe_eval (safe_eval (.vStr "['Action', 'Comedy']")) ≠
      safe_eval (.vStr "['Action', 'Comedy']") := by
  refine ⟨rfl, by decide, by decide⟩

/-! ### Claim C10: values outside the enumerated shapes degrade to empty -/

/-- Claim C10: every non-null input that is neither a string nor a list
(in this model: an integer or a float) decodes to the empty sequence - it
is not passed through and cannot raise, the decoder being total. -/
theorem safe_eval_default_empty (v : PyVal) (h1 : v ≠ .vNone)
    (h2 : ∀ s, v ≠ .vStr s) (h3 : ∀ xs, v ≠ .vList xs) :
    safe_eval v = .vList [] := by
  cases v with
  | vNone => exact absurd rfl h1
  | vStr s => exact absurd rfl (h2 s)
  | vList xs => exact absurd rfl (h3 xs)
  | vInt n => rfl
  | vFloat q => rfl

theorem safe_eval_default_empty_witness :
    safe_eval (.vInt 7) = .vList [] :=
  safe_eval_default_empty (.vInt 7) (fun h => PyVal.noConfusion h)
    (fun _ h => PyVal.noConfusion h) (fun _ h => PyVal.noConfusion h)

/-! ### Claim C8: empty subsets degrade to empty or neutral results -/

/-- Claim C8: on an empty filtered subset every aggregator sub-computation
produces an empty or neutral result instead of failing: the count is 0, the
mean and both the studio and gems views are the neutral `none`, the top
genre degrades to the string `N/A`, and the grid is empty; moreover the
guarded computations degrade likewise whenever their own restricted subset
is empty (no median is computed over an empty gems population, and the
trends grid of an empty restricted subset is empty).  Every computation is
total, so nothing can index into an empty structure. -/
theorem empty_subset_degrades (rows : List AnimeRow) :
    (rows = [] →
      totalCount rows = 0 ∧ meanScore rows = none ∧ sumMembers rows = 0 ∧
      top_genre rows = "N/A" ∧ topStudiosView rows = none ∧
      gemsView rows = none ∧ genre_counts rows = []) ∧
    (df_gems rows = [] →
      gemsView rows = none ∧ median_members rows = none ∧
      median_ratioQ rows = none ∧ hiddenRows rows = [] ∧ hidden rows = []) ∧
    (df_trends rows = [] → top_genres rows = [] ∧ genre_counts rows = []) := by
  refine ⟨?_, ?_, ?_⟩
  · rintro rfl
    exact ⟨rfl, rfl, rfl, rfl, rfl, rfl, rfl⟩
  · intro h
    refine ⟨?_, ?_, ?_, ?_, ?_⟩
    · rw [gemsView, h]
      rfl
    · rw [median_members, h]
      rfl
    · rw [median_ratioQ, h]
      rfl
    · rw [hiddenRows, h]
      rfl
    · rw [hidden, hiddenRows, h]
      rfl
  · intro h
    constructor
    · rw [top_genres, genresFlat, h]
      rfl
    · rw [genre_counts, trendDecades, top_genres, genresFlat, h]
      rfl

theorem empty_subset_degrades_witness :
    (totalCount ([] : List AnimeRow) = 0 ∧ meanScore [] = none ∧
      sumMembers [] = 0 ∧ top_genre [] = "N/A" ∧ topStudiosView [] = none ∧
      gemsView [] = none ∧ genre_counts [] = []) ∧
    (gemsView ([] : List AnimeRow) = none ∧ median_members [] = none ∧
      median_ratioQ [] = none ∧ hiddenRows [] = [] ∧ hidden [] = []) ∧
    (top_genres ([] : List AnimeRow) = [] ∧ genre_counts [] = []) :=
  ⟨(empty_subset_degrades []).1 rfl, (empty_subset_degrades []).2.1 rfl,
    (empty_subset_degrades []).2.2 rfl⟩


/-! ### Claim C6: the displayed search table -/

/-- Claim C6: the displayed result is exactly the matches stably sorted
descending by score - a null score is the bottom key, hence sorts last -
truncated to the first 100 rows; the sort is a permutation of the matches,
the output is sorted for the descending-score order, and it never has more
than 100 rows. -/
theorem search_display_ranked (ms : List AnimeRow) :
    searchDisplay ms = (sortDescBy scoreKey ms).take 100 ∧
    (searchDisplay ms).length ≤ 100 ∧
    List.Sorted (keyRel scoreKey) (searchDisplay ms) ∧
    (sortDescBy scoreKey ms).Perm ms := by
  refine ⟨rfl, ?_, ?_, ?_⟩
  · rw [searchDisplay, List.length_take]
    exact Nat.min_le_left _ _
  · exact List.Pairwise.sublist (List.take_sublist _ _)
      (List.sorted_insertionSort _ _)
  · exact List.perm_insertionSort _ _


/-! ### Claim C5: search is regex matching, not substring matching -/

theorem isLiteralChar_toLower (c : Char) (h : isLiteralChar c = true) :
    isLiteralChar c.toLower = true := by
  unfold Char.toLower
  dsimp only
  split
  case isTrue hc =>
    obtain ⟨h1, h2⟩ := hc
    generalize Char.toNat c = n at h1 h2
    interval_cases n <;> decide
  case isFalse => exact h

theorem plainQuery_lowerChars (q : String) (h : plainQuery q = true) :
    (lowerChars q).all isLiteralChar = true := by
  rw [lowerChars, List.all_map]
  rw [plainQuery] at h
  rw [List.all_eq_true] at h ⊢
  intro c hc
  exact isLiteralChar_toLower c (h c hc)

theorem matchHere_iff_isPrefix (pat : List Char) (hp : pat.all isLiteralChar = true) :
    ∀ s : List Char, matchHere pat s = true ↔ pat <+: s := by
  induction pat with
  | nil =>
    intro s
    simp [matchHere, List.nil_prefix]
  | cons p ps ih =>
    intro s
    rw [List.all_cons, Bool.and_eq_true] at hp
    have hpd : p ≠ '.' := by
      intro hpe
      rw [hpe] at hp
      exact absurd hp.1 (by decide)
    cases s with
    | nil => simp [matchHere]
    | cons c cs =>
      simp only [matchHere, if_neg hpd, Bool.and_eq_true, decide_eq_true_eq,
        ih hp.2 cs, List.cons_prefix_cons]

theorem reSearch_iff_substring (pat : List Char) (hp : pat.all isLiteralChar = true) :
    ∀ s : List Char, reSearch pat s = true ↔ pat <:+: s := by
  intro s
  induction s with
  | nil =>
    simp only [reSearch]
    rw [matchHere_iff_isPrefix pat hp, List.infix_nil, List.prefix_nil]
  | cons c cs ih =>
    simp only [reSearch]
    rw [Bool.or_eq_true, ih, matchHere_iff_isPrefix pat hp, List.infix_cons_iff]

/-- Claim C5 counterexample: the claim states that with a non-empty query a
row is in the result iff its title contains the query as a case-insensitive
substring.  That is false on the code: the query is handed to the regex
engine (`str.contains` defaults to `regex=True`), so the one-character
query consisting of the metacharacter dot matches the title `abc` even
though `abc` does not contain that character. -/
theorem search_regex_counterexample :
    searchResults abcDemo "." = [rowAbc] ∧ ¬ specContainsCI "abc" "." := by
  exact ⟨rfl, by decide⟩

/-- Claim C5 as amended: with an empty or absent query the search returns
the subset unchanged; with a non-empty query the code interprets the query
as a case-insensitive regular expression, so for every query free of regex
metacharacters a row is in the result iff it is in the subset and its title
contains the query as a case-insensitive substring; rows with a null title
never match. -/
theorem search_plain_query_correct (rows : List AnimeRow) (q : String) :
    searchResults rows "" = rows ∧
    (q ≠ "" → plainQuery q = true →
      ∀ r, r ∈ searchResults rows q ↔
        r ∈ rows ∧ ∃ t, r.title = some t ∧ specContainsCI t q) := by
  constructor
  · rw [searchResults, if_pos rfl]
  · intro hq hplain r
    rw [searchResults, if_neg hq, List.mem_filter]
    have hmt : titleMatchesQ q r = true ↔
        ∃ t, r.title = some t ∧ specContainsCI t q := by
      cases ht : r.title with
      | none => simp [titleMatchesQ, ht]
      | some t =>
        simp only [titleMatchesQ, ht]
        rw [reSearch_iff_substring _ (plainQuery_lowerChars q hplain)]
        simp [specContainsCI]
    rw [hmt]

theorem search_plain_query_correct_witness :
    rowAbc ∈ searchResults abcDemo "b" :=
  ((search_plain_query_correct abcDemo "b").2 (by decide) (by decide) rowAbc).mpr
    ⟨by decide, "abc", rfl, by decide⟩


/-! ### Claim C1: hidden gems -/

theorem medianQ_isSome (xs : List Rat) (h : xs ≠ []) : ∃ q, medianQ xs = some q := by
  cases xs with
  | nil => exact absurd rfl h
  | cons x l =>
    simp only [medianQ]
    split <;> exact ⟨_, rfl⟩

/-- Claim C1: every row of the hidden-gems result lies in the restricted
population (non-null `recommendation_count`, `members > 100`), its members
are below the interpolated median of the members of that same population,
and its ratio is above the interpolated median of the ratios of that same
population; the result is definitionally the first 10 rows of the stable
descending sort by `rec_ratio` (ties keep original order), is itself sorted
descending by ratio, has at most 10 rows, and the sort is a permutation of
the hidden rows. -/
theorem hidden_gems_correct (df : List AnimeRow) (lo hi : Int) (smin : Rat) :
    (∀ r ∈ hidden (df_filtered df lo hi smin),
      r ∈ df_gems (df_filtered df lo hi smin) ∧
      r.recommendation_count.isSome = true ∧
      (∃ m, r.members = some m ∧ 100 < m ∧
        ∃ mm, median_members (df_filtered df lo hi smin) = some mm ∧ m < mm) ∧
      (∃ mr, median_ratioQ (df_filtered df lo hi smin) = some mr ∧
        mr < ratioOf r)) ∧
    hidden (df_filtered df lo hi smin) =
      (sortDescBy ratioOf (hiddenRows (df_filtered df lo hi smin))).take 10 ∧
    (hidden (df_filtered df lo hi smin)).length ≤ 10 ∧
    List.Sorted (keyRel ratioOf) (hidden (df_filtered df lo hi smin)) ∧
    (sortDescBy ratioOf (hiddenRows (df_filtered df lo hi smin))).Perm
      (hiddenRows (df_filtered df lo hi smin)) := by
  set F := df_filtered df lo hi smin with hF
  refine ⟨?_, rfl, ?_, ?_, List.perm_insertionSort _ _⟩
  · intro r hr
    have h1 : r ∈ sortDescBy ratioOf (hiddenRows F) :=
      (List.take_sublist _ _).subset hr
    have h2 : r ∈ hiddenRows F := (List.perm_insertionSort _ _).subset h1
    obtain ⟨hgem, hpred⟩ := List.mem_filter.mp h2
    have hgnil : df_gems F ≠ [] := List.ne_nil_of_mem hgem
    have hgp := (List.mem_filter.mp hgem).2
    rw [gemPred, Bool.and_eq_true] at hgp
    obtain ⟨hrec, hmem⟩ := hgp
    rw [hiddenPred, Bool.and_eq_true] at hpred
    obtain ⟨hlt1, hlt2⟩ := hpred
    rw [decide_eq_true_eq] at hlt1 hlt2
    obtain ⟨mm, hmm⟩ := medianQ_isSome ((df_gems F).map (fun x => x.members.getD 0))
      (by intro hmapnil; exact hgnil (by simpa using hmapnil))
    obtain ⟨mr, hmr⟩ := medianQ_isSome ((df_gems F).map ratioOf)
      (by intro hmapnil; exact hgnil (by simpa using hmapnil))
    have hmm2 : median_members F = some mm := hmm
    have hmr2 : median_ratioQ F = some mr := hmr
    rw [hmm2] at hlt1
    rw [hmr2] at hlt2
    simp only [Option.getD_some] at hlt1 hlt2
    refine ⟨hgem, hrec, ?_, ⟨mr, hmr2, hlt2⟩⟩
    cases hm : r.members with
    | none =>
      rw [hm] at hmem
      exact absurd hmem (by decide)
    | some m =>
      rw [hm] at hmem
      simp only [decide_eq_true_eq] at hmem
      rw [hm, Option.getD_some] at hlt1
      exact ⟨m, rfl, hmem, mm, hmm2, hlt1⟩
  · rw [hidden, List.length_take]
    exact Nat.min_le_left _ _
  · exact List.Pairwise.sublist (List.take_sublist _ _)
      (List.sorted_insertionSort _ _)

set_option maxRecDepth 4000 in
theorem hidden_gems_correct_witness :
    wB ∈ df_gems (df_filtered gemsDemo 2000 2020 0) ∧
    wB.recommendation_count.isSome = true ∧
    (∃ m, wB.members = some m ∧ 100 < m ∧
      ∃ mm, median_members (df_filtered gemsDemo 2000 2020 0) = some mm ∧
        m < mm) ∧
    (∃ mr, median_ratioQ (df_filtered gemsDemo 2000 2020 0) = some mr ∧
      mr < ratioOf wB) :=
  (hidden_gems_correct gemsDemo 2000 2020 0).1 wB (by with_unfolding_all decide)


/-! ### Claim C3: the genre-by-decade grid -/

theorem distinctFirst_mem {α : Type} [DecidableEq α] (l : List α) (a : α) :
    a ∈ distinctFirst l ↔ a ∈ l := by
  induction l with
  | nil => simp [distinctFirst]
  | cons x xs ih =>
    by_cases hax : a = x
    · subst hax
      simp [distinctFirst]
    · simp [distinctFirst, List.mem_filter, ih, hax]

theorem distinctFirst_nodup {α : Type} [DecidableEq α] (l : List α) :
    (distinctFirst l).Nodup := by
  induction l with
  | nil => simp [distinctFirst]
  | cons x xs ih =>
    rw [distinctFirst, List.nodup_cons]
    refine ⟨?_, ih.filter _⟩
    intro hmem
    have h2 := (List.mem_filter.mp hmem).2
    simp at h2

theorem trendDecades_nodup (rows : List AnimeRow) : (trendDecades rows).Nodup :=
  (List.perm_insertionSort _ _).nodup_iff.mpr (distinctFirst_nodup _)

theorem top_genres_nodup (rows : List AnimeRow) : (top_genres rows).Nodup :=
  List.Nodup.sublist (List.take_sublist _ _)
    ((List.perm_insertionSort _ _).nodup_iff.mpr (distinctFirst_nodup _))

theorem mem_trendDecades (rows : List AnimeRow) (r : AnimeRow)
    (hr : r ∈ df_trends rows) : decadeOf r ∈ trendDecades rows := by
  rw [trendDecades, List.mem_insertionSort, distinctFirst_mem]
  exact List.mem_map_of_mem _ hr

theorem filter_eq_single {α : Type} [DecidableEq α] (a : α) :
    ∀ l : List α, l.Nodup → a ∈ l → l.filter (fun y => decide (y = a)) = [a] := by
  intro l
  induction l with
  | nil =>
    intro _ ha
    cases ha
  | cons x xs ih =>
    intro hnd ha
    rw [List.nodup_cons] at hnd
    rcases List.mem_cons.mp ha with h | h
    · subst h
      rw [List.filter_cons_of_pos (by simp)]
      have hnil : xs.filter (fun y => decide (y = a)) = [] :=
        List.filter_eq_nil_iff.mpr (by
          intro y hy
          simp only [decide_eq_true_eq]
          exact fun hya => hnd.1 (hya ▸ hy))
      rw [hnil]
    · have hxa : x ≠ a := fun he => hnd.1 (he ▸ h)
      rw [List.filter_cons_of_neg (by simpa using hxa)]
      exact ih hnd.2 h

theorem countP_eq_one_of_nodup {α : Type} [DecidableEq α] (l : List α)
    (hnd : l.Nodup) (a : α) (ha : a ∈ l) :
    l.countP (fun y => decide (y = a)) = 1 := by
  rw [List.countP_eq_length_filter, filter_eq_single a l hnd ha]
  rfl

theorem sum_map_single {α : Type} [DecidableEq α] (a : α) (f : α → Nat) (c : Nat)
    (hfa : f a = c) :
    ∀ ds : List α, ds.Nodup → a ∈ ds → (∀ x ∈ ds, x ≠ a → f x = 0) →
      (ds.map f).sum = c := by
  intro ds
  induction ds with
  | nil =>
    intro _ ha _
    cases ha
  | cons e es ih =>
    intro hnd ha hf0
    rw [List.map_cons, List.sum_cons]
    rw [List.nodup_cons] at hnd
    rcases List.mem_cons.mp ha with h | h
    · subst h
      rw [hfa]
      have hz : (es.map f).sum = 0 :=
        List.sum_eq_zero (by
          intro y hy
          rcases List.mem_map.mp hy with ⟨x, hx, rfl⟩
          exact hf0 x (List.mem_cons_of_mem _ hx) (fun hxa => hnd.1 (hxa ▸ hx)))
      omega
    · have hne : e ≠ a := fun he => hnd.1 (he ▸ h)
      rw [hf0 e (List.mem_cons_self _ _) hne, Nat.zero_add]
      exact ih hnd.2 h (fun x hx hxa => hf0 x (List.mem_cons_of_mem _ hx) hxa)

theorem sum_map_add {α : Type} (f g : α → Nat) (l : List α) :
    (l.map (fun x => f x + g x)).sum = (l.map f).sum + (l.map g).sum := by
  induction l with
  | nil => rfl
  | cons x xs ih =>
    simp only [List.map_cons, List.sum_cons, ih]
    omega

theorem sum_decade_counts (g : String) (ds : List Int) (hnd : ds.Nodup) :
    ∀ rows : List AnimeRow, (∀ r ∈ rows, decadeOf r ∈ ds) →
      (ds.map (fun d =>
        (genresFlat (rows.filter (fun r => decide (decadeOf r = d)))).count g)).sum
        = (genresFlat rows).count g := by
  intro rows
  induction rows with
  | nil =>
    intro _
    simp [genresFlat]
  | cons r rs ih =>
    intro hall
    have hrd : decadeOf r ∈ ds := hall r (List.mem_cons_self _ _)
    have hall2 : ∀ x ∈ rs, decadeOf x ∈ ds :=
      fun x hx => hall x (List.mem_cons_of_mem _ hx)
    have hsplit : ∀ d : Int,
        (genresFlat ((r :: rs).filter (fun x => decide (decadeOf x = d)))).count g
          = (if decadeOf r = d then r.genres_list.count g else 0)
            + (genresFlat (rs.filter (fun x => decide (decadeOf x = d)))).count g := by
      intro d
      by_cases h : decadeOf r = d
      · rw [List.filter_cons_of_pos (by simpa using h)]
        rw [show genresFlat (r :: rs.filter (fun x => decide (decadeOf x = d)))
            = r.genres_list ++
              genresFlat (rs.filter (fun x => decide (decadeOf x = d))) from rfl]
        rw [List.count_append, if_pos h]
      · rw [List.filter_cons_of_neg (by simpa using h), if_neg h, Nat.zero_add]
    rw [List.map_congr_left (fun d _ => hsplit d), sum_map_add, ih hall2]
    rw [show genresFlat (r :: rs) = r.genres_list ++ genresFlat rs from rfl,
      List.count_append]
    congr 1
    exact sum_map_single (decadeOf r) _ _ (if_pos rfl) ds hnd hrd
      (fun x _ hx => if_neg (fun he => hx he.symm))

/-- Claim C3 counterexample: the claim fixes the grid size at
`#decades * 6`, but the code takes `head(6)` of the genre ranking, so with
fewer than 6 distinct genres the grid is smaller: on a one-row dataset with
a single genre the grid has 1 row, not `1 * 6`. -/
theorem genre_grid_six_refuted :
    (genre_counts (df_filtered soloDemo 2000 2025 6)).length ≠
      (trendDecades (df_filtered soloDemo 2000 2025 6)).length * 6 := by
  decide

/-- Claim C3 as amended: the genre-by-decade output is a dense grid over
the decades present in the restricted subset and the top `k` genres, where
`k = min 6 (number of distinct genres)` (so `k = 6` whenever at least 6
distinct genres occur): the grid has exactly `#decades * k` rows, every
(decade, genre) pair appears exactly once, all counts are non-negative and
equal the occurrence count of that genre in that decade, and for each top
genre the sum of its counts across all decades equals its total occurrence
count in the restricted subset. -/
theorem genre_grid_dense (df : List AnimeRow) (lo hi : Int) (smin : Rat) :
    (genre_counts (df_filtered df lo hi smin)).length =
      (trendDecades (df_filtered df lo hi smin)).length *
        (top_genres (df_filtered df lo hi smin)).length ∧
    (top_genres (df_filtered df lo hi smin)).length =
      min 6 (distinctFirst (genresFlat (df_trends (df_filtered df lo hi smin)))).length ∧
    (∀ d ∈ trendDecades (df_filtered df lo hi smin),
      ∀ g ∈ top_genres (df_filtered df lo hi smin),
        (genre_counts (df_filtered df lo hi smin)).countP
          (fun e => decide (e.decade = d) && decide (e.genre = g)) = 1) ∧
    (∀ e ∈ genre_counts (df_filtered df lo hi smin),
      0 ≤ e.count ∧
      e.count = (decadeGenres (df_filtered df lo hi smin) e.decade).count e.genre) ∧
    (∀ g ∈ top_genres (df_filtered df lo hi smin),
      (((genre_counts (df_filtered df lo hi smin)).filter
          (fun e => decide (e.genre = g))).map GridEntry.count).sum =
        (genresFlat (df_trends (df_filtered df lo hi smin))).count g) := by
  set R := df_filtered df lo hi smin with hR
  refine ⟨?_, ?_, ?_, ?_, ?_⟩
  · rw [genre_counts, List.length_flatMap]
    simp only [Function.comp_def, List.length_map]
    rw [List.map_const', List.sum_replicate, smul_eq_mul]
  · rw [top_genres, List.length_take, valueCountsKeys, sortDescBy,
      List.length_insertionSort]
  · intro d hd g hg
    rw [genre_counts, List.countP_flatMap]
    refine sum_map_single d _ 1 ?_ (trendDecades R) (trendDecades_nodup R) hd ?_
    · simp only [Function.comp_apply]
      rw [List.countP_map]
      have hcomp :
          ((fun e => decide (e.decade = d) && decide (e.genre = g)) ∘
            (fun g2 =>
              GridEntry.mk d g2 ((decadeGenres R d).count g2)))
            = fun g2 => decide (g2 = g) := by
        funext g2
        simp [Function.comp]
      rw [hcomp]
      exact countP_eq_one_of_nodup _ (top_genres_nodup R) g hg
    · intro d2 _ hd2
      simp only [Function.comp_apply]
      rw [List.countP_map]
      refine List.countP_eq_zero.mpr ?_
      intro g2 _
      simp [Function.comp, hd2]
  · intro e he
    obtain ⟨d, hd, he2⟩ := List.mem_flatMap.mp he
    obtain ⟨g, hg, rfl⟩ := List.mem_map.mp he2
    exact ⟨Nat.zero_le _, rfl⟩
  · intro g hg
    rw [genre_counts, List.filter_flatMap]
    have hinner : ∀ d : Int,
        ((top_genres R).map (fun g2 =>
            GridEntry.mk d g2 ((decadeGenres R d).count g2))).filter
          (fun e => decide (e.genre = g))
          = [GridEntry.mk d g ((decadeGenres R d).count g)] := by
      intro d
      rw [List.filter_map]
      have hcomp :
          ((fun e => decide (e.genre = g)) ∘
            (fun g2 =>
              GridEntry.mk d g2 ((decadeGenres R d).count g2)))
            = fun g2 => decide (g2 = g) := by
        funext g2
        simp [Function.comp]
      rw [hcomp, filter_eq_single g _ (top_genres_nodup R) hg]
      rfl
    simp only [hinner]
    rw [List.map_flatMap]
    simp only [List.map_cons, List.map_nil]
    rw [← List.map_eq_flatMap]
    exact sum_decade_counts g (trendDecades R) (trendDecades_nodup R) (df_trends R)
      (fun r hr => mem_trendDecades R r hr)

theorem genre_grid_dense_witness :
    (genre_counts (df_filtered soloDemo 2000 2025 6)).countP
        (fun e => decide (e.decade = 2000) && decide (e.genre = "A")) = 1 ∧
    (((genre_counts (df_filtered soloDemo 2000 2025 6)).filter
        (fun e => decide (e.genre = "A"))).map GridEntry.count).sum =
      (genresFlat (df_trends (df_filtered soloDemo 2000 2025 6))).count "A" :=
  ⟨(genre_grid_dense soloDemo 2000 2025 6).2.2.1 2000 (by decide) "A" (by decide),
   (genre_grid_dense soloDemo 2000 2025 6).2.2.2.2 "A" (by decide)⟩

end AnimeDash
